import Mathlib

/-
Verification of the rule engine of the gmail_automation repository
(src/rule_engine.py) against its natural-language specification.

Modelling conventions, chosen so that every definition is executable and
kernel-evaluable:
- Python strings are Lean String values; the Python str.lower method is
  modelled by a character-wise map (str_lower) over the underlying data.
- Timestamps (datetime values) and durations are measured in hundredths of
  a day (an integer), so that the 30.44-day month approximation used by the
  source (value times 30.44 days) is represented exactly as 3044 units.
  datetime.now(timezone.utc) is passed explicitly as a parameter named now.
- A value that can be None in Python is an Option, or a dedicated null
  constructor where the dynamic type matters for isinstance checks.
- logger.warning and print calls, and the invocations of GmailClient
  methods, are recorded in an event trace (List Event) returned alongside
  each result, so that claims about warnings and about which mail-service
  calls happen are statable.
- The one uncaught exception reachable inside Condition.evaluate (calling
  .lower() on a non-string rule value under the contains predicates) is
  modelled by an Option-valued result: none stands for a raised exception.
- The mail service is an oracle (Call -> Bool) giving the boolean outcome
  of each method invocation, mirroring the pass-through success signal.
-/

namespace Gmail

/-- Python str.lower, modelled as a character-wise lowercase map over the
underlying character data of the string. -/
def str_lower (s : String) : String := String.mk (s.data.map Char.toLower)

/-- Whether the list ns occurs as a leading segment of hs. -/
def char_list_le : List Char → List Char → Bool
  | [], _ => true
  | _ :: _, [] => false
  | a :: as, b :: bs => a = b && char_list_le as bs

/-- Whether the list ns occurs contiguously anywhere inside hs; this is the
Python substring operator (needle in haystack) on character data. -/
def char_list_sub (ns : List Char) : List Char → Bool
  | [] => char_list_le ns []
  | b :: bs => char_list_le ns (b :: bs) || char_list_sub ns bs

/-- Python needle in haystack on strings. -/
def str_contains (hay needle : String) : Bool :=
  char_list_sub needle.data hay.data

/-- One invocation of a GmailClient method, with its arguments. -/
inductive Call where
  | mark_as_read (email_id : String)
  | mark_as_unread (email_id : String)
  | move_message (email_id : String) (destination : String)
  | apply_label (email_id : String) (label_name : String)
deriving DecidableEq

/-- The mail-service collaborator: an oracle giving the boolean result of
each method invocation. -/
abbrev GmailClient := Call → Bool

/-- Observable side effects of the rule engine: warning-level log records
(logger.warning), plain printed lines (print), the per-rule match outcome
line printed by process_emails, and mail-service invocations. -/
inductive Event where
  | warn (msg : String)
  | printed (msg : String)
  | evaluated (rule_description : String) (matched : Bool)
  | call (c : Call)
deriving DecidableEq

/-- The mail-service invocations contained in an event trace. -/
def calls_of (evs : List Event) : List Call :=
  evs.filterMap (fun ev => match ev with
    | Event.call c => some c
    | _ => none)

/-- Whether an event is a warning-level diagnostic. -/
def Event.is_warn : Event → Bool
  | Event.warn _ => true
  | _ => false

/-- Whether an event is a rule-evaluation outcome or a mail-service call;
these are the events the processing loop is specified through. -/
def Event.is_core : Event → Bool
  | Event.evaluated _ _ => true
  | Event.call _ => true
  | _ => false

/-- The rule-evaluation and mail-service events of a trace, in order. -/
def core_trace (evs : List Event) : List Event :=
  evs.filter Event.is_core

/-- The Email data model of rule_engine.py. Attributes that can be None in
Python are Option values; the received timestamp is in hundredths of a day. -/
structure Email where
  id : String
  thread_id : String
  from_address : Option String
  subject : Option String
  received_date_time : Option ℤ
  message_body : Option String
  label_ids : List String
deriving DecidableEq

/-- The dynamic value obtained by resolving a field name on an Email:
None, a string, or a datetime. -/
inductive EmailValue where
  | null
  | str (s : String)
  | dt (t : ℤ)
deriving DecidableEq

/-- Whether an EmailValue is a Python string (isinstance(v, str)). -/
def EmailValue.is_string : EmailValue → Bool
  | EmailValue.str _ => true
  | _ => false

/-- The rule value of a condition: None, a string, or a dict; a dict with a
days key, with a months key but no days key, or with neither key. -/
inductive CondValue where
  | null
  | str (s : String)
  | days (n : ℤ)
  | months (n : ℤ)
  | dict_other
deriving DecidableEq

/-- Whether a CondValue is a Python string (isinstance(v, str)). -/
def CondValue.is_string : CondValue → Bool
  | CondValue.str _ => true
  | _ => false

/-- Whether a CondValue is Python None. -/
def CondValue.is_null : CondValue → Bool
  | CondValue.null => true
  | _ => false

/-- The Python equality operator between a resolved email value and a rule
value: None equals None, strings compare exactly, and values of different
dynamic types are unequal. -/
def py_eq : EmailValue → CondValue → Bool
  | EmailValue.null, CondValue.null => true
  | EmailValue.str a, CondValue.str b => a = b
  | _, _ => false

/-- A single condition of a rule: field name, predicate name, rule value. -/
structure Condition where
  field : String
  predicate : String
  value : CondValue
deriving DecidableEq

/-- Warning text emitted for an unrecognized field name. -/
def unknown_field_msg (field_name : String) : String :=
  "Warning: Unknown field " ++ field_name ++ ". Cannot evaluate condition."

/-- Warning text emitted for an unrecognized predicate name. -/
def unknown_predicate_msg (predicate field : String) : String :=
  "Warning: Unknown predicate " ++ predicate ++ " for field " ++ field ++
    ". Condition will not be met."

/-- Condition._get_email_field_value: resolve a field name to the matching
Email attribute; an unrecognized name resolves to None with a warning. -/
def get_email_field_value (e : Email) (field_name : String) :
    EmailValue × List Event :=
  if field_name = "From" then
    (match e.from_address with
      | some s => EmailValue.str s
      | none => EmailValue.null, [])
  else if field_name = "Subject" then
    (match e.subject with
      | some s => EmailValue.str s
      | none => EmailValue.null, [])
  else if field_name = "Message" then
    (match e.message_body with
      | some s => EmailValue.str s
      | none => EmailValue.null, [])
  else if field_name = "Received Date/Time" then
    (match e.received_date_time with
      | some t => EmailValue.dt t
      | none => EmailValue.null, [])
  else
    (EmailValue.null, [Event.warn (unknown_field_msg field_name)])

/-- Condition.evaluate. The first component is the evaluation result, where
none stands for an uncaught exception (the source calls self.value.lower()
under the contains predicates, which raises when the rule value is not a
string); the second component is the trace of emitted warnings. The now
parameter is datetime.now(timezone.utc) in hundredths of a day, and a month
is converted to 3044 such units (30.44 days). -/
def Condition.evaluate (c : Condition) (e : Email) (now : ℤ) :
    Option Bool × List Event :=
  let r := get_email_field_value e c.field
  let ev := r.1
  let warns := r.2
  if ev = EmailValue.null ∧ c.predicate ∉ (["equals", "does not equal"] : List String) then
    (some false, warns)
  else if c.predicate = "contains" then
    match ev with
    | EmailValue.str s =>
      match c.value with
      | CondValue.str v => (some (str_contains (str_lower s) (str_lower v)), warns)
      | _ => (none, warns)
    | _ => (some false, warns)
  else if c.predicate = "does not contain" then
    match ev with
    | EmailValue.str s =>
      match c.value with
      | CondValue.str v => (some (!str_contains (str_lower s) (str_lower v)), warns)
      | _ => (none, warns)
    | _ => (some false, warns)
  else if c.predicate = "equals" then
    match ev, c.value with
    | EmailValue.str a, CondValue.str b => (some (str_lower a = str_lower b), warns)
    | v, w => (some (py_eq v w), warns)
  else if c.predicate = "does not equal" then
    match ev, c.value with
    | EmailValue.str a, CondValue.str b => (some (!(str_lower a = str_lower b)), warns)
    | v, w => (some (!py_eq v w), warns)
  else if c.predicate = "less than" then
    if c.field = "Received Date/Time" then
      match ev with
      | EmailValue.dt t =>
        match c.value with
        | CondValue.days n => (some (decide (t > now - 100 * n)), warns)
        | CondValue.months n => (some (decide (t > now - 3044 * n)), warns)
        | _ => (some false, warns)
      | _ => (some false, warns)
    else
      (some false, warns)
  else if c.predicate = "greater than" then
    if c.field = "Received Date/Time" then
      match ev with
      | EmailValue.dt t =>
        match c.value with
        | CondValue.days n => (some (decide (t < now - 100 * n)), warns)
        | CondValue.months n => (some (decide (t < now - 3044 * n)), warns)
        | _ => (some false, warns)
      | _ => (some false, warns)
    else
      (some false, warns)
  else
    (some false, warns ++ [Event.warn (unknown_predicate_msg c.predicate c.field)])

/-- An action of a rule: its type name and its optional value (destination
mailbox or label name). -/
structure Action where
  action_type : String
  value : Option String
deriving DecidableEq

/-- Python truthiness of an optional string: None and the empty string are
falsy. -/
def truthy : Option String → Bool
  | none => false
  | some s => !(s = "")

/-- Error text printed when a Move Message action has no destination. -/
def missing_move_target_msg (email_id : String) : String :=
  "Error: Missing destination mailbox for Move Message action for email " ++
    email_id ++ "."

/-- Error text printed when an Apply Label action has no label name. -/
def missing_label_target_msg (email_id : String) : String :=
  "Error: Missing label name for Apply Label action for email " ++
    email_id ++ "."

/-- Warning text emitted for an unrecognized action type. -/
def unknown_action_msg (action_type email_id : String) : String :=
  "Warning: Unknown action type " ++ action_type ++
    ". Action not executed for email " ++ email_id ++ "."

/-- Action.execute: dispatch on the action type; the result is the boolean
outcome together with the trace of mail-service calls and diagnostics. -/
def Action.execute (a : Action) (client : GmailClient) (email_id : String) :
    Bool × List Event :=
  if a.action_type = "Mark as Read" then
    (client (Call.mark_as_read email_id), [Event.call (Call.mark_as_read email_id)])
  else if a.action_type = "Mark as Unread" then
    (client (Call.mark_as_unread email_id), [Event.call (Call.mark_as_unread email_id)])
  else if a.action_type = "Move Message" then
    if truthy a.value then
      let v := a.value.getD ""
      (client (Call.move_message email_id v), [Event.call (Call.move_message email_id v)])
    else
      (false, [Event.printed (missing_move_target_msg email_id)])
  else if a.action_type = "Apply Label" then
    if truthy a.value then
      let v := a.value.getD ""
      (client (Call.apply_label email_id v), [Event.call (Call.apply_label email_id v)])
    else
      (false, [Event.printed (missing_label_target_msg email_id)])
  else
    (false, [Event.warn (unknown_action_msg a.action_type email_id)])

/-- A rule: description, overall predicate (combinator), ordered conditions
and ordered actions. -/
structure Rule where
  description : String
  overall_predicate : String
  conditions : List Condition
  actions : List Action
deriving DecidableEq

/-- The Rule constructor, which lowercases the overall predicate. -/
def mkRule (description overall_predicate : String)
    (conditions : List Condition) (actions : List Action) : Rule :=
  { description := description
    overall_predicate := str_lower overall_predicate
    conditions := conditions
    actions := actions }

/-- Sequential evaluation of a list of conditions against an email (the list
comprehension inside Rule.matches): the results in order, or none when an
evaluation raises, together with all warnings emitted up to that point. -/
def eval_conditions : List Condition → Email → ℤ → Option (List Bool) × List Event
  | [], _, _ => (some [], [])
  | c :: cs, e, now =>
    match Condition.evaluate c e now with
    | (none, evs) => (none, evs)
    | (some b, evs) =>
      match eval_conditions cs e now with
      | (none, evs2) => (none, evs ++ evs2)
      | (some bs, evs2) => (some (b :: bs), evs ++ evs2)

/-- Warning text emitted for an unrecognized overall predicate. -/
def unknown_combinator_msg (p : String) : String :=
  "Warning: Unknown overall predicate " ++ p ++ ". Rule will not match."

/-- Rule.matches: an empty condition list always matches; otherwise all
conditions are evaluated and combined with all or any, and an unrecognized
combinator yields false with a warning. -/
def Rule.matches (r : Rule) (e : Email) (now : ℤ) : Option Bool × List Event :=
  if r.conditions.isEmpty then
    (some true, [])
  else
    match eval_conditions r.conditions e now with
    | (none, evs) => (none, evs)
    | (some bs, evs) =>
      if r.overall_predicate = "all" then
        (some (bs.all id), evs)
      else if r.overall_predicate = "any" then
        (some (bs.any id), evs)
      else
        (some false, evs ++ [Event.warn (unknown_combinator_msg r.overall_predicate)])

/-- Log text printed when an action of a rule fails. -/
def action_failed_msg (action_type email_id : String) : String :=
  "Action " ++ action_type ++ " failed for email " ++ email_id ++ "."

/-- Log text printed when a rule starts executing its actions. -/
def executing_actions_msg (email_id description : String) : String :=
  "Executing actions for email " ++ email_id ++ " based on rule: " ++ description

/-- One step of the action loop of Rule.execute_actions: execute the action,
clear the aggregate flag on failure, and append the emitted events. -/
def action_step (client : GmailClient) (email_id : String)
    (acc : Bool × List Event) (a : Action) : Bool × List Event :=
  let res := Action.execute a client email_id
  let fail_evs : List Event :=
    if res.1 then [] else [Event.printed (action_failed_msg a.action_type email_id)]
  (acc.1 && res.1, acc.2 ++ res.2 ++ fail_evs)

/-- Rule.execute_actions: run every action in declared order, tracking
whether all of them succeeded. -/
def Rule.execute_actions (r : Rule) (client : GmailClient) (email_id : String) :
    Bool × List Event :=
  r.actions.foldl (action_step client email_id)
    (true, [Event.printed (executing_actions_msg email_id r.description)])

/-- One parsed condition entry of the rule document; a missing key is None
and raises KeyError when accessed by the loader. -/
structure CondData where
  field : Option String
  predicate : Option String
  value : Option CondValue
deriving DecidableEq

/-- One parsed action entry of the rule document; the value key is read with
dict.get and therefore never raises. -/
structure ActionData where
  action_type : Option String
  value : Option String
deriving DecidableEq

/-- One parsed rule entry of the rule document; description, overall
predicate, conditions and actions are all read with dict.get defaults. -/
structure RuleData where
  description : Option String
  overall_predicate : Option String
  conditions : Option (List CondData)
  actions : Option (List ActionData)
deriving DecidableEq

/-- The state of the rule source as the loader sees it: the file is absent,
the document does not parse as JSON, or it parses to a list of entries. -/
inductive RulesSource where
  | missing_file
  | unparseable
  | doc (rules : List RuleData)

/-- Sequential fallible traversal: the Python loop that stops at the first
KeyError, discarding everything accumulated so far. -/
def map_opt (f : α → Option β) : List α → Option (List β)
  | [] => some []
  | a :: as =>
    match f a with
    | none => none
    | some b =>
      match map_opt f as with
      | none => none
      | some bs => some (b :: bs)

/-- Build a Condition from one condition entry; a missing field, predicate
or value key raises KeyError (none). -/
def parse_condition (cd : CondData) : Option Condition :=
  match cd.field, cd.predicate, cd.value with
  | some f, some p, some v => some { field := f, predicate := p, value := v }
  | _, _, _ => none

/-- Build an Action from one action entry; a missing type key raises
KeyError (none); a missing value key yields None. -/
def parse_action (ad : ActionData) : Option Action :=
  match ad.action_type with
  | some t => some { action_type := t, value := ad.value }
  | none => none

/-- Build a Rule from one rule entry, applying the documented defaults; any
KeyError inside it propagates. -/
def parse_rule (rd : RuleData) : Option Rule :=
  match map_opt parse_condition (rd.conditions.getD []) with
  | none => none
  | some conds =>
    match map_opt parse_action (rd.actions.getD []) with
    | none => none
    | some acts =>
      some (mkRule (rd.description.getD "Untitled Rule")
        (rd.overall_predicate.getD "all") conds acts)

/-- RuleEngine._load_rules: a missing file or unparseable document yields an
empty rule list; a KeyError while parsing any entry makes the whole load
return the empty list, discarding every rule parsed before it. -/
def load_rules : RulesSource → List Rule
  | RulesSource.missing_file => []
  | RulesSource.unparseable => []
  | RulesSource.doc rds =>
    match map_opt parse_rule rds with
    | none => []
    | some rules => rules

/-- Whether one condition entry carries every key the loader accesses. -/
def CondData.struct_valid (cd : CondData) : Bool :=
  cd.field.isSome && cd.predicate.isSome && cd.value.isSome

/-- Whether one action entry carries the type key the loader accesses. -/
def ActionData.struct_valid (ad : ActionData) : Bool :=
  ad.action_type.isSome

/-- Whether one rule entry carries every required sub-field. -/
def RuleData.struct_valid (rd : RuleData) : Bool :=
  (rd.conditions.getD []).all CondData.struct_valid &&
    (rd.actions.getD []).all ActionData.struct_valid

/-- The inner loop of RuleEngine.process_emails for one email: evaluate each
rule in load order, record the outcome, and execute the actions of every
matching rule; the flag is false when a condition evaluation raised, which
aborts the loop. -/
def process_rules : List Rule → Email → GmailClient → ℤ → Bool × List Event
  | [], _, _, _ => (true, [])
  | r :: rs, e, client, now =>
    match Rule.matches r e now with
    | (none, evs) => (false, evs)
    | (some m, evs) =>
      let act_evs := if m then (Rule.execute_actions r client e.id).2 else []
      let rest := process_rules rs e client now
      (rest.1, evs ++ [Event.evaluated r.description m] ++ act_evs ++ rest.2)

/-- Log text printed when processing of one email starts. -/
def processing_email_msg (email_id : String) : String :=
  "Processing email ID: " ++ email_id

/-- The outer loop of RuleEngine.process_emails over the batch of emails. -/
def process_all : List Email → List Rule → GmailClient → ℤ → Bool × List Event
  | [], _, _, _ => (true, [])
  | e :: es, rules, client, now =>
    let head := Event.printed (processing_email_msg e.id)
    let res := process_rules rules e client now
    if res.1 then
      let rest := process_all es rules client now
      (rest.1, head :: (res.2 ++ rest.2))
    else
      (false, head :: res.2)

/-- Log text printed when the rule list is empty and processing is skipped. -/
def no_rules_msg : String :=
  "No rules loaded. Skipping email processing."

/-- Log text printed before a batch is processed. -/
def start_batch_msg (n_emails n_rules : Nat) : String :=
  "Starting to process " ++ toString n_emails ++ " emails with " ++
    toString n_rules ++ " rules..."

/-- Log text printed after a batch has been processed. -/
def complete_msg : String :=
  "Email processing complete."

/-- RuleEngine.process_emails: skip entirely when no rules are loaded,
otherwise run every email through every rule. -/
def RuleEngine.process_emails (rules : List Rule) (emails : List Email)
    (client : GmailClient) (now : ℤ) : Bool × List Event :=
  if rules.isEmpty then
    (true, [Event.printed no_rules_msg])
  else
    let start := Event.printed (start_batch_msg emails.length rules.length)
    let res := process_all emails rules client now
    if res.1 then
      (true, start :: (res.2 ++ [Event.printed complete_msg]))
    else
      (false, start :: res.2)

/-- The four field names recognized by Condition evaluation. -/
def known_fields : List String :=
  ["From", "Subject", "Message", "Received Date/Time"]

/-- The six predicate names recognized by Condition evaluation. -/
def known_predicates : List String :=
  ["contains", "does not contain", "equals", "does not equal",
    "less than", "greater than"]

/-- The four action type names recognized by Action.execute. -/
def known_action_types : List String :=
  ["Mark as Read", "Mark as Unread", "Move Message", "Apply Label"]

/-- A concrete email used to instantiate proved theorems. -/
def sample_email : Email :=
  { id := "e1"
    thread_id := "t1"
    from_address := some "Alice@Example.com"
    subject := some "Hello World"
    received_date_time := some 1000
    message_body := some "some body text"
    label_ids := [] }

/-- A mail service that reports success for every invocation. -/
def yes_client : GmailClient := fun _ => true

/-- A mail service that reports failure for every invocation. -/
def no_client : GmailClient := fun _ => false

/-- Resolving an unrecognized field name yields None plus the unknown-field
warning. -/
theorem get_email_field_value_unknown (e : Email) (f : String)
    (hf : f ∉ known_fields) :
    get_email_field_value e f = (EmailValue.null, [Event.warn (unknown_field_msg f)]) := by
  simp only [known_fields, List.mem_cons, List.not_mem_nil, or_false, not_or] at hf
  obtain ⟨h1, h2, h3, h4⟩ := hf
  simp [get_email_field_value, h1, h2, h3, h4]

/-- Python equality of None against a rule value holds exactly when that
value is itself None. -/
theorem py_eq_null (v : CondValue) : py_eq EmailValue.null v = v.is_null := by
  cases v <;> rfl

/-- C8: for every Condition whose predicate is not Equals or NotEquals, if
the record attribute resolved from the condition field is null or absent,
evaluate returns false (and in particular does not raise). -/
theorem c8_null_resolved_evaluates_false (c : Condition) (e : Email) (now : ℤ)
    (h1 : (get_email_field_value e c.field).1 = EmailValue.null)
    (h2 : c.predicate ∉ (["equals", "does not equal"] : List String)) :
    (Condition.evaluate c e now).1 = some false := by
  simp only [Condition.evaluate]
  rw [if_pos ⟨h1, h2⟩]

/-- C8 witness: a contains condition on the sender is false on a record
whose sender is null. -/
theorem c8_witness :
    (Condition.evaluate { field := "From", predicate := "contains", value := CondValue.str "X" }
      { sample_email with from_address := none } 0).1 = some false :=
  c8_null_resolved_evaluates_false
    { field := "From", predicate := "contains", value := CondValue.str "X" }
    { sample_email with from_address := none } 0 (by decide) (by decide)

/-- C9: under the Equals predicate, two string operands compare by
case-insensitive equality; any other pairing of operand shapes compares by
Python value equality, under which None equals None; and NotEquals is the
pointwise boolean negation of Equals on every input. -/
theorem c9_equality_semantics (c : Condition) (e : Email) (now : ℤ) :
    (c.predicate = "equals" →
      (∀ s v, (get_email_field_value e c.field).1 = EmailValue.str s →
        c.value = CondValue.str v →
        (Condition.evaluate c e now).1 = some (decide (str_lower s = str_lower v))) ∧
      (((get_email_field_value e c.field).1.is_string && c.value.is_string) = false →
        (Condition.evaluate c e now).1 =
          some (py_eq (get_email_field_value e c.field).1 c.value)) ∧
      ((get_email_field_value e c.field).1 = EmailValue.null →
        c.value = CondValue.null →
        (Condition.evaluate c e now).1 = some true)) ∧
    (c.predicate = "does not equal" →
      (Condition.evaluate c e now).1 =
        ((Condition.evaluate { c with predicate := "equals" } e now).1).map (fun x => !x)) := by
  obtain ⟨f, p, v⟩ := c
  constructor
  · intro hp
    subst hp
    refine ⟨?_, ?_, ?_⟩
    · intro s w hs hw
      subst hw
      simp [Condition.evaluate, hs]
    · intro hb
      simp only [Condition.evaluate]
      rcases hev : (get_email_field_value e f).1 with _ | s | t <;>
        rcases hv : v with _ | w | n | n | _ <;>
        simp_all [EmailValue.is_string, CondValue.is_string]
    · intro hn hv
      subst hv
      simp [Condition.evaluate, hn, py_eq]
  · intro hp
    subst hp
    simp only [Condition.evaluate]
    rcases hev : (get_email_field_value e f).1 with _ | s | t <;>
      rcases hv : v with _ | w | n | n | _ <;>
      simp [py_eq]

/-- C9 witness: equality of two subjects differing only in case holds, and
the corresponding NotEquals evaluation is its negation. -/
theorem c9_witness :
    (Condition.evaluate (Condition.mk "Subject" "equals" (CondValue.str "hELLO wORLD"))
      sample_email 0).1 = some true ∧
    (Condition.evaluate (Condition.mk "Subject" "does not equal" (CondValue.str "hELLO wORLD"))
      sample_email 0).1 = some false := by
  constructor
  · have h := ((c9_equality_semantics
      (Condition.mk "Subject" "equals" (CondValue.str "hELLO wORLD"))
      sample_email 0).1 rfl).1 "Hello World" "hELLO wORLD" (by decide) rfl
    exact h.trans (by decide)
  · have h := (c9_equality_semantics
      (Condition.mk "Subject" "does not equal" (CondValue.str "hELLO wORLD"))
      sample_email 0).2 rfl
    exact h.trans (by decide)

/-- C7: on the Received Date/Time field with a present timestamp, the less
than predicate with a days or months duration is true exactly when the
timestamp is more recent than now minus the duration (a month counting as
30.44 days, i.e. 3044 hundredths of a day), the greater than predicate is
true exactly when the timestamp predates that threshold, and either date
predicate on any other field evaluates false. -/
theorem c7_date_predicates (c : Condition) (e : Email) (now n : ℤ) :
    (c.field = "Received Date/Time" →
      ∀ t, e.received_date_time = some t →
        ((c.predicate = "less than" → c.value = CondValue.days n →
          (Condition.evaluate c e now).1 = some (decide (t > now - 100 * n))) ∧
         (c.predicate = "less than" → c.value = CondValue.months n →
          (Condition.evaluate c e now).1 = some (decide (t > now - 3044 * n))) ∧
         (c.predicate = "greater than" → c.value = CondValue.days n →
          (Condition.evaluate c e now).1 = some (decide (t < now - 100 * n))) ∧
         (c.predicate = "greater than" → c.value = CondValue.months n →
          (Condition.evaluate c e now).1 = some (decide (t < now - 3044 * n))))) ∧
    ((c.predicate = "less than" ∨ c.predicate = "greater than") →
      c.field ≠ "Received Date/Time" →
      (Condition.evaluate c e now).1 = some false) := by
  obtain ⟨f, p, v⟩ := c
  constructor
  · intro hf t ht
    subst hf
    have hev : get_email_field_value e "Received Date/Time" = (EmailValue.dt t, []) := by
      simp [get_email_field_value, ht]
    refine ⟨?_, ?_, ?_, ?_⟩ <;> intro hp hv <;> subst hp <;> subst hv <;>
      simp [Condition.evaluate, hev]
  · intro hp hf
    rcases hev : (get_email_field_value e f).1 with _ | s | t <;>
      rcases hp with hp | hp <;> subst hp <;>
      simp [Condition.evaluate, hev, hf]

/-- C7 witness: a message received at time 1000 evaluated at now 1500 is
less than 7 days old (threshold 800) and greater than 2 days old
(threshold 1300), while a date predicate on the Subject field is false. -/
theorem c7_witness :
    (Condition.evaluate (Condition.mk "Received Date/Time" "less than" (CondValue.days 7))
      sample_email 1500).1 = some true ∧
    (Condition.evaluate (Condition.mk "Received Date/Time" "greater than" (CondValue.days 2))
      sample_email 1500).1 = some true ∧
    (Condition.evaluate (Condition.mk "Subject" "less than" (CondValue.days 7))
      sample_email 1500).1 = some false := by
  refine ⟨?_, ?_, ?_⟩
  · have h := ((c7_date_predicates
      (Condition.mk "Received Date/Time" "less than" (CondValue.days 7))
      sample_email 1500 7).1 rfl 1000 rfl).1 rfl rfl
    exact h.trans (by decide)
  · have h := ((c7_date_predicates
      (Condition.mk "Received Date/Time" "greater than" (CondValue.days 2))
      sample_email 1500 2).1 rfl 1000 rfl).2.2.1 rfl rfl
    exact h.trans (by decide)
  · exact (c7_date_predicates (Condition.mk "Subject" "less than" (CondValue.days 7))
      sample_email 1500 7).2 (Or.inl rfl) (by decide)

/-- C5: Action.execute dispatches on the type name: Mark as Read and Mark
as Unread invoke the matching mail-service method once and return its
boolean unchanged; Move Message and Apply Label with an absent target
return false without any mail-service call; and an unrecognized type
returns false with a warning and never calls the mail service. -/
theorem c5_action_dispatch (a : Action) (client : GmailClient) (email_id : String) :
    (a.action_type = "Mark as Read" →
      Action.execute a client email_id =
        (client (Call.mark_as_read email_id), [Event.call (Call.mark_as_read email_id)])) ∧
    (a.action_type = "Mark as Unread" →
      Action.execute a client email_id =
        (client (Call.mark_as_unread email_id), [Event.call (Call.mark_as_unread email_id)])) ∧
    ((a.action_type = "Move Message" ∨ a.action_type = "Apply Label") →
      a.value = none →
      (Action.execute a client email_id).1 = false ∧
      calls_of (Action.execute a client email_id).2 = []) ∧
    (a.action_type ∉ known_action_types →
      (Action.execute a client email_id).1 = false ∧
      calls_of (Action.execute a client email_id).2 = [] ∧
      (Action.execute a client email_id).2 =
        [Event.warn (unknown_action_msg a.action_type email_id)]) := by
  obtain ⟨ty, v⟩ := a
  refine ⟨?_, ?_, ?_, ?_⟩
  · intro h
    subst h
    simp [Action.execute]
  · intro h
    subst h
    simp [Action.execute]
  · intro h hv
    subst hv
    rcases h with h | h <;> subst h <;>
      simp [Action.execute, truthy, calls_of]
  · intro h
    simp only [known_action_types, List.mem_cons, List.not_mem_nil, or_false, not_or] at h
    obtain ⟨h1, h2, h3, h4⟩ := h
    simp [Action.execute, h1, h2, h3, h4, calls_of]

/-- C5 witness: Mark as Read passes the mail-service boolean through, a
Move Message action lacking a destination fails without any call, and an
unrecognized type fails with only a warning. -/
theorem c5_witness :
    Action.execute (Action.mk "Mark as Read" none) no_client "e1" =
      (false, [Event.call (Call.mark_as_read "e1")]) ∧
    (Action.execute (Action.mk "Move Message" none) yes_client "e1").1 = false ∧
    calls_of (Action.execute (Action.mk "Move Message" none) yes_client "e1").2 = [] ∧
    (Action.execute (Action.mk "NonExistentAction" none) yes_client "e1").2 =
      [Event.warn (unknown_action_msg "NonExistentAction" "e1")] := by
  refine ⟨?_, ?_, ?_, ?_⟩
  · exact ((c5_action_dispatch (Action.mk "Mark as Read" none) no_client "e1").1 rfl).trans
      (by decide)
  · exact ((c5_action_dispatch (Action.mk "Move Message" none) yes_client "e1").2.2.1
      (Or.inl rfl) rfl).1
  · exact ((c5_action_dispatch (Action.mk "Move Message" none) yes_client "e1").2.2.1
      (Or.inl rfl) rfl).2
  · exact ((c5_action_dispatch (Action.mk "NonExistentAction" none) yes_client "e1").2.2.2
      (by decide)).2.2

/-- C10: a Move Message or Apply Label action whose target is the empty
string behaves like one with an absent target, because the source checks
the target for truthiness rather than for being non-null: execute returns
false and never calls the mail service. -/
theorem c10_empty_target (a : Action) (client : GmailClient) (email_id : String)
    (h : a.action_type = "Move Message" ∨ a.action_type = "Apply Label")
    (hv : a.value = some "") :
    (Action.execute a client email_id).1 = false ∧
    calls_of (Action.execute a client email_id).2 = [] := by
  obtain ⟨ty, v⟩ := a
  subst hv
  rcases h with h | h <;> subst h <;>
    simp [Action.execute, truthy, calls_of]

/-- C10 witness: both action types at the empty-string target on a concrete
mail service. -/
theorem c10_witness :
    ((Action.execute (Action.mk "Move Message" (some "")) yes_client "e1").1 = false ∧
      calls_of (Action.execute (Action.mk "Move Message" (some "")) yes_client "e1").2 = []) ∧
    ((Action.execute (Action.mk "Apply Label" (some "")) yes_client "e1").1 = false ∧
      calls_of (Action.execute (Action.mk "Apply Label" (some "")) yes_client "e1").2 = []) :=
  ⟨c10_empty_target (Action.mk "Move Message" (some "")) yes_client "e1" (Or.inl rfl) rfl,
   c10_empty_target (Action.mk "Apply Label" (some "")) yes_client "e1" (Or.inr rfl) rfl⟩

/-- Closed form of the action loop of Rule.execute_actions: starting from
any accumulator, the final flag conjoins the outcome of every action and
the final trace appends the events of every action in declared order. -/
theorem execute_actions_foldl (client : GmailClient) (email_id : String)
    (acts : List Action) (b : Bool) (evs : List Event) :
    acts.foldl (action_step client email_id) (b, evs) =
      (b && acts.all (fun a => (Action.execute a client email_id).1),
       evs ++ acts.flatMap (fun a => (Action.execute a client email_id).2 ++
         (if (Action.execute a client email_id).1 then []
          else [Event.printed (action_failed_msg a.action_type email_id)]))) := by
  induction acts generalizing b evs with
  | nil => simp
  | cons a as ih =>
    simp only [List.foldl_cons, List.all_cons, List.flatMap_cons, action_step]
    rw [ih]
    simp [Bool.and_assoc]

/-- calls_of distributes over list concatenation. -/
theorem calls_of_append (l1 l2 : List Event) :
    calls_of (l1 ++ l2) = calls_of l1 ++ calls_of l2 := by
  simp [calls_of, List.filterMap_append]

/-- calls_of distributes over flatMap. -/
theorem calls_of_flatMap (f : α → List Event) (l : List α) :
    calls_of (l.flatMap f) = l.flatMap (fun a => calls_of (f a)) := by
  induction l with
  | nil => rfl
  | cons a as ih => simp [List.flatMap_cons, calls_of_append, ih]

/-- C4: Rule.execute_actions attempts every action in declared order - the
mail-service calls it performs are exactly the concatenation of the calls of
each action, so an early failure never blocks later actions - and its
aggregate result is true if and only if every action execution returned
true. -/
theorem c4_execute_all_actions (r : Rule) (client : GmailClient) (email_id : String) :
    calls_of (Rule.execute_actions r client email_id).2 =
      r.actions.flatMap (fun a => calls_of (Action.execute a client email_id).2) ∧
    ((Rule.execute_actions r client email_id).1 = true ↔
      ∀ a ∈ r.actions, (Action.execute a client email_id).1 = true) := by
  unfold Rule.execute_actions
  rw [execute_actions_foldl]
  constructor
  · simp only [calls_of_append, calls_of_flatMap]
    have h0 : calls_of [Event.printed (executing_actions_msg email_id r.description)] = [] := rfl
    rw [h0, List.nil_append]
    congr 1
    funext a
    have h1 : calls_of (if (Action.execute a client email_id).1 then []
        else [Event.printed (action_failed_msg a.action_type email_id)]) = [] := by
      split <;> rfl
    rw [h1, List.append_nil]
  · simp [List.all_eq_true]

/-- C4 witness: a rule whose two actions both fail against a failing mail
service still invokes both, and the aggregate result is false. -/
theorem c4_witness :
    calls_of (Rule.execute_actions
      (Rule.mk "r" "all" [] [Action.mk "Mark as Read" none, Action.mk "Mark as Unread" none])
      no_client "e1").2 = [Call.mark_as_read "e1", Call.mark_as_unread "e1"] ∧
    (Rule.execute_actions
      (Rule.mk "r" "all" [] [Action.mk "Mark as Read" none, Action.mk "Mark as Unread" none])
      no_client "e1").1 = false := by
  constructor
  · exact ((c4_execute_all_actions
      (Rule.mk "r" "all" [] [Action.mk "Mark as Read" none, Action.mk "Mark as Unread" none])
      no_client "e1").1).trans (by decide)
  · have h := (c4_execute_all_actions
      (Rule.mk "r" "all" [] [Action.mk "Mark as Read" none, Action.mk "Mark as Unread" none])
      no_client "e1").2
    by_contra hb
    rw [Bool.not_eq_false] at hb
    exact absurd (h.mp hb (Action.mk "Mark as Read" none) (by decide)) (by decide)

/-- When no condition evaluation raises, eval_conditions returns exactly
the list of per-condition results in order. -/
theorem eval_conditions_total (cs : List Condition) (e : Email) (now : ℤ)
    (h : ∀ c ∈ cs, ((Condition.evaluate c e now).1).isSome) :
    (eval_conditions cs e now).1 =
      some (cs.map (fun c => ((Condition.evaluate c e now).1).getD false)) := by
  induction cs with
  | nil => rfl
  | cons c cs ih =>
    have hc := h c (by simp)
    obtain ⟨b, hb⟩ := Option.isSome_iff_exists.mp hc
    have ih2 := ih (fun c hmem => h c (by simp [hmem]))
    simp only [eval_conditions, List.map_cons]
    rcases h1 : Condition.evaluate c e now with ⟨o, evs⟩
    rw [h1] at hb
    simp only at hb
    subst hb
    rcases h2 : eval_conditions cs e now with ⟨o2, evs2⟩
    rw [h2] at ih2
    simp only at ih2
    subst ih2
    simp [h1]

/-- The conjunction of a mapped boolean list is the conjunction of the map. -/
theorem list_all_map_id (f : α → Bool) (l : List α) : (l.map f).all id = l.all f := by
  induction l with
  | nil => rfl
  | cons a as ih => simp [ih]

/-- The disjunction of a mapped boolean list is the disjunction of the map. -/
theorem list_any_map_id (f : α → Bool) (l : List α) : (l.map f).any id = l.any f := by
  induction l with
  | nil => rfl
  | cons a as ih => simp [ih]

/-- C3: Rule.matches is true on an empty condition sequence; on a nonempty
one (with no evaluation raising) the all combinator yields the conjunction
of the per-condition results and the any combinator their disjunction; and
any other combinator yields false with a warning. -/
theorem c3_rule_matches (r : Rule) (e : Email) (now : ℤ)
    (h : ∀ c ∈ r.conditions, ((Condition.evaluate c e now).1).isSome) :
    (r.conditions = [] → (Rule.matches r e now).1 = some true) ∧
    (r.overall_predicate = "all" →
      (Rule.matches r e now).1 =
        some (r.conditions.all (fun c => ((Condition.evaluate c e now).1).getD false))) ∧
    (r.overall_predicate = "any" → r.conditions ≠ [] →
      (Rule.matches r e now).1 =
        some (r.conditions.any (fun c => ((Condition.evaluate c e now).1).getD false))) ∧
    (r.overall_predicate ∉ (["all", "any"] : List String) → r.conditions ≠ [] →
      (Rule.matches r e now).1 = some false ∧
      Event.warn (unknown_combinator_msg r.overall_predicate) ∈ (Rule.matches r e now).2) := by
  have htot := eval_conditions_total r.conditions e now h
  refine ⟨?_, ?_, ?_, ?_⟩
  · intro hc
    simp [Rule.matches, hc]
  · intro hp
    by_cases hc : r.conditions = []
    · simp [Rule.matches, hc]
    · have hne : r.conditions.isEmpty = false := by
        simpa [List.isEmpty_iff] using hc
      simp only [Rule.matches, hne, Bool.false_eq_true, if_false]
      rcases h2 : eval_conditions r.conditions e now with ⟨o2, evs2⟩
      rw [h2] at htot
      simp only at htot
      subst htot
      simp [hp, list_all_map_id]
  · intro hp hc
    have hne : r.conditions.isEmpty = false := by
      simpa [List.isEmpty_iff] using hc
    simp only [Rule.matches, hne, Bool.false_eq_true, if_false]
    rcases h2 : eval_conditions r.conditions e now with ⟨o2, evs2⟩
    rw [h2] at htot
    simp only at htot
    subst htot
    simp [hp, list_any_map_id]
  · intro hp hc
    simp only [List.mem_cons, List.not_mem_nil, or_false, not_or] at hp
    obtain ⟨h1, h2'⟩ := hp
    have hne : r.conditions.isEmpty = false := by
      simpa [List.isEmpty_iff] using hc
    simp only [Rule.matches, hne, Bool.false_eq_true, if_false]
    rcases h2 : eval_conditions r.conditions e now with ⟨o2, evs2⟩
    rw [h2] at htot
    simp only at htot
    subst htot
    simp [h1, h2']

/-- C3 witness: an empty rule matches; a nonempty all rule is the
conjunction of its condition results; an unrecognized combinator gives
false with a warning. -/
theorem c3_witness :
    (Rule.matches (Rule.mk "empty" "bogus" [] []) sample_email 0).1 = some true ∧
    (Rule.matches (Rule.mk "r" "all"
      [Condition.mk "Subject" "contains" (CondValue.str "hello"),
       Condition.mk "Subject" "contains" (CondValue.str "zzz")] []) sample_email 0).1 =
      some false ∧
    (Rule.matches (Rule.mk "r" "bogus"
      [Condition.mk "Subject" "contains" (CondValue.str "hello")] []) sample_email 0).1 =
      some false := by
  refine ⟨?_, ?_, ?_⟩
  · exact (c3_rule_matches (Rule.mk "empty" "bogus" [] []) sample_email 0
      (by intro c hc; cases hc)).1 rfl
  · have h := (c3_rule_matches (Rule.mk "r" "all"
      [Condition.mk "Subject" "contains" (CondValue.str "hello"),
       Condition.mk "Subject" "contains" (CondValue.str "zzz")] []) sample_email 0
      (by decide)).2.1 rfl
    exact h.trans (by decide)
  · exact ((c3_rule_matches (Rule.mk "r" "bogus"
      [Condition.mk "Subject" "contains" (CondValue.str "hello")] []) sample_email 0
      (by decide)).2.2.2 (by decide) (by decide)).1

/-- Resolving a recognized field name emits no events at all. -/
theorem get_email_field_value_known (e : Email) (f : String)
    (hf : f ∈ known_fields) :
    (get_email_field_value e f).2 = [] := by
  simp only [known_fields, List.mem_cons, List.not_mem_nil, or_false] at hf
  rcases hf with h | h | h | h <;> subst h <;> simp [get_email_field_value]

/-- C1 counterexample: both universal conjuncts of the claim fail at
concrete inputs. First, an unknown field does not make evaluate false for
every record: the field resolves to None, and under the equals predicate
with a None rule value the comparison None equals None returns true.
Second, an unknown predicate does not always emit a warning: on a record
whose recognized field is null, the null short-circuit returns false with
an empty event trace, so no diagnostic at all is emitted. -/
theorem c1_counterexample :
    ("X-Priority" ∉ known_fields ∧
      (Condition.evaluate (Condition.mk "X-Priority" "equals" CondValue.null)
        sample_email 0).1 = some true) ∧
    ("starts with" ∉ known_predicates ∧
      Condition.evaluate (Condition.mk "Subject" "starts with" (CondValue.str "x"))
        { sample_email with subject := none } 0 = (some false, [])) := by decide

/-- C1 (amended): a Condition with an unrecognized predicate evaluates
false for every record without raising; the unknown-predicate warning is
emitted whenever the resolved field value is non-null, while a null
resolved value makes evaluate return false with exactly the
field-resolution events - for a recognized field an empty trace, so the
unknown-predicate warning is then not emitted. A Condition with an
unrecognized field emits the unknown-field warning, resolves the field to
null, and evaluates false without raising for every predicate other than
equals and does not equal - under equals it is true exactly when the rule
value is null, and under does not equal exactly when it is not. -/
theorem c1_unknown_names (c : Condition) (e : Email) (now : ℤ) :
    (c.predicate ∉ known_predicates →
      (Condition.evaluate c e now).1 = some false ∧
      ((get_email_field_value e c.field).1 ≠ EmailValue.null →
        Event.warn (unknown_predicate_msg c.predicate c.field) ∈
          (Condition.evaluate c e now).2) ∧
      ((get_email_field_value e c.field).1 = EmailValue.null →
        Condition.evaluate c e now =
          (some false, (get_email_field_value e c.field).2)) ∧
      ((get_email_field_value e c.field).1 = EmailValue.null →
        c.field ∈ known_fields →
        (Condition.evaluate c e now).2 = [] ∧
        Event.warn (unknown_predicate_msg c.predicate c.field) ∉
          (Condition.evaluate c e now).2)) ∧
    (c.field ∉ known_fields →
      Event.warn (unknown_field_msg c.field) ∈ (Condition.evaluate c e now).2 ∧
      (c.predicate ∉ (["equals", "does not equal"] : List String) →
        (Condition.evaluate c e now).1 = some false) ∧
      (c.predicate = "equals" →
        (Condition.evaluate c e now).1 = some c.value.is_null) ∧
      (c.predicate = "does not equal" →
        (Condition.evaluate c e now).1 = some (!c.value.is_null))) := by
  obtain ⟨f, p, v⟩ := c
  constructor
  · intro hp
    simp only [known_predicates, List.mem_cons, List.not_mem_nil, or_false, not_or] at hp
    obtain ⟨h1, h2, h3, h4, h5, h6⟩ := hp
    have hnull : (get_email_field_value e f).1 = EmailValue.null →
        Condition.evaluate (Condition.mk f p v) e now =
          (some false, (get_email_field_value e f).2) := by
      intro hev
      simp only [Condition.evaluate]
      rw [if_pos ⟨hev, by simp [h3, h4]⟩]
    refine ⟨?_, ?_, hnull, ?_⟩
    · by_cases hev : (get_email_field_value e f).1 = EmailValue.null
      · rw [hnull hev]
      · simp [Condition.evaluate, hev, h1, h2, h3, h4, h5, h6]
    · intro hev
      simp [Condition.evaluate, hev, h1, h2, h3, h4, h5, h6]
    · intro hev hfk
      rw [hnull hev, get_email_field_value_known e f hfk]
      exact ⟨rfl, by simp⟩
  · intro hf
    have hu := get_email_field_value_unknown e f hf
    refine ⟨?_, ?_, ?_, ?_⟩
    · by_cases h3 : p = "equals"
      · subst h3
        simp [Condition.evaluate, hu]
      · by_cases h4 : p = "does not equal"
        · subst h4
          simp only [Condition.evaluate, hu]
          rcases v <;> simp [py_eq]
        · simp [Condition.evaluate, hu, h3, h4]
    · intro hp
      simp only [List.mem_cons, List.not_mem_nil, or_false, not_or] at hp
      obtain ⟨h3, h4⟩ := hp
      simp [Condition.evaluate, hu, h3, h4]
    · intro hp
      subst hp
      simp only [Condition.evaluate, hu]
      rcases v <;> simp [py_eq, CondValue.is_null]
    · intro hp
      subst hp
      simp only [Condition.evaluate, hu]
      rcases v <;> simp [py_eq, CondValue.is_null]

/-- C1 witness: an unrecognized predicate on a present field value gives
false; the same predicate on a record whose recognized field is null gives
false with an empty event trace (no unknown-predicate warning); and an
unrecognized field with a contains predicate gives false. -/
theorem c1_witness :
    (Condition.evaluate (Condition.mk "Subject" "matches regex" (CondValue.str "x"))
      sample_email 0).1 = some false ∧
    (Condition.evaluate (Condition.mk "Subject" "matches regex" (CondValue.str "x"))
      { sample_email with subject := none } 0).2 = [] ∧
    (Condition.evaluate (Condition.mk "X-Priority" "contains" (CondValue.str "1"))
      sample_email 0).1 = some false := by
  refine ⟨?_, ?_, ?_⟩
  · exact ((c1_unknown_names (Condition.mk "Subject" "matches regex" (CondValue.str "x"))
      sample_email 0).1 (by decide)).1
  · exact (((c1_unknown_names (Condition.mk "Subject" "matches regex" (CondValue.str "x"))
      { sample_email with subject := none } 0).1 (by decide)).2.2.2
      (by decide) (by decide)).1
  · exact ((c1_unknown_names (Condition.mk "X-Priority" "contains" (CondValue.str "1"))
      sample_email 0).2 (by decide)).2.1 (by decide)

/-- The sequential fallible traversal fails exactly when some element
fails. -/
theorem map_opt_eq_none (f : α → Option β) (l : List α) :
    map_opt f l = none ↔ ∃ a ∈ l, f a = none := by
  induction l with
  | nil => simp [map_opt]
  | cons a as ih =>
    simp only [map_opt, List.mem_cons]
    rcases h : f a with _ | b
    · simp [h]
    · rcases h2 : map_opt f as with _ | bs <;> simp_all

/-- A condition entry fails to parse exactly when it lacks a required key. -/
theorem parse_condition_none (cd : CondData) :
    parse_condition cd = none ↔ cd.struct_valid = false := by
  obtain ⟨f, p, v⟩ := cd
  rcases f <;> rcases p <;> rcases v <;>
    simp [parse_condition, CondData.struct_valid]

/-- An action entry fails to parse exactly when it lacks the type key. -/
theorem parse_action_none (ad : ActionData) :
    parse_action ad = none ↔ ad.struct_valid = false := by
  obtain ⟨t, v⟩ := ad
  rcases t <;> simp [parse_action, ActionData.struct_valid]

/-- A rule entry fails to parse exactly when one of its condition or action
entries lacks a required sub-field. -/
theorem parse_rule_none (rd : RuleData) :
    parse_rule rd = none ↔ rd.struct_valid = false := by
  simp only [parse_rule, RuleData.struct_valid, Bool.and_eq_false_iff,
    List.all_eq_false]
  rcases h1 : map_opt parse_condition (rd.conditions.getD []) with _ | conds
  · rw [map_opt_eq_none] at h1
    obtain ⟨cd, hmem, hcd⟩ := h1
    simp only [true_iff]
    exact Or.inl ⟨cd, hmem, by simpa [parse_condition_none] using hcd⟩
  · rcases h2 : map_opt parse_action (rd.actions.getD []) with _ | acts
    · rw [map_opt_eq_none] at h2
      obtain ⟨ad, hmem, had⟩ := h2
      simp only [true_iff]
      exact Or.inr ⟨ad, hmem, by simpa [parse_action_none] using had⟩
    · constructor
      · intro hsome
        exact absurd hsome (by simp)
      · intro hbad
        exfalso
        rcases hbad with ⟨cd, hmem, hcd⟩ | ⟨ad, hmem, had⟩
        · have hn : parse_condition cd = none :=
            (parse_condition_none cd).mpr (Bool.not_eq_true _ ▸ hcd)
          exact absurd ((map_opt_eq_none _ _).mpr ⟨cd, hmem, hn⟩) (by simp [h1])
        · have hn : parse_action ad = none :=
            (parse_action_none ad).mpr (Bool.not_eq_true _ ▸ had)
          exact absurd ((map_opt_eq_none _ _).mpr ⟨ad, hmem, hn⟩) (by simp [h2])

/-- C6: loading from a missing file or an unparseable document yields the
empty rule list without raising, and a document containing any rule entry
with a missing required sub-field makes the whole load yield the empty rule
list, discarding every other entry of the same document. -/
theorem c6_load_rules :
    load_rules RulesSource.missing_file = [] ∧
    load_rules RulesSource.unparseable = [] ∧
    ∀ rds rd, rd ∈ rds → RuleData.struct_valid rd = false →
      load_rules (RulesSource.doc rds) = [] := by
  refine ⟨rfl, rfl, ?_⟩
  intro rds rd hmem hinv
  have hrd : parse_rule rd = none := (parse_rule_none rd).mpr hinv
  have : map_opt parse_rule rds = none := (map_opt_eq_none _ _).mpr ⟨rd, hmem, hrd⟩
  simp [load_rules, this]

/-- C6 witness: a document whose first entry is valid and whose second
entry lacks the field key of a condition loads as the empty rule list. -/
theorem c6_witness :
    load_rules (RulesSource.doc
      [RuleData.mk (some "ok") (some "any") (some [])
        (some [ActionData.mk (some "Mark as Read") none]),
       RuleData.mk none none
        (some [CondData.mk none (some "equals") (some CondValue.null)]) none]) = [] :=
  c6_load_rules.2.2
    [RuleData.mk (some "ok") (some "any") (some [])
      (some [ActionData.mk (some "Mark as Read") none]),
     RuleData.mk none none
      (some [CondData.mk none (some "equals") (some CondValue.null)]) none]
    (RuleData.mk none none
      (some [CondData.mk none (some "equals") (some CondValue.null)]) none)
    (by decide) (by decide)

/-- Every event emitted while resolving a field is a warning. -/
theorem get_email_field_value_warns (e : Email) (f : String) :
    ∀ ev ∈ (get_email_field_value e f).2, ev.is_warn = true := by
  intro ev hev
  simp only [get_email_field_value] at hev
  split_ifs at hev <;> simp_all [Event.is_warn]

/-- The events of a condition evaluation are the field-resolution events,
possibly followed by the unknown-predicate warning. -/
theorem evaluate_events_shape (c : Condition) (e : Email) (now : ℤ) :
    (Condition.evaluate c e now).2 = (get_email_field_value e c.field).2 ∨
    (Condition.evaluate c e now).2 =
      (get_email_field_value e c.field).2 ++
        [Event.warn (unknown_predicate_msg c.predicate c.field)] := by
  obtain ⟨f, p, v⟩ := c
  by_cases h1 : p = "contains"
  · subst h1
    rcases hev : (get_email_field_value e f).1 with _ | s | t <;>
      rcases v with _ | w | n | n | _ <;> simp [Condition.evaluate, hev]
  · by_cases h2 : p = "does not contain"
    · subst h2
      rcases hev : (get_email_field_value e f).1 with _ | s | t <;>
        rcases v with _ | w | n | n | _ <;> simp [Condition.evaluate, hev]
    · by_cases h3 : p = "equals"
      · subst h3
        rcases hev : (get_email_field_value e f).1 with _ | s | t <;>
          rcases v with _ | w | n | n | _ <;> simp [Condition.evaluate, hev]
      · by_cases h4 : p = "does not equal"
        · subst h4
          rcases hev : (get_email_field_value e f).1 with _ | s | t <;>
            rcases v with _ | w | n | n | _ <;> simp [Condition.evaluate, hev]
        · by_cases h5 : p = "less than"
          · subst h5
            by_cases hf : f = "Received Date/Time"
            · subst hf
              rcases hev : (get_email_field_value e "Received Date/Time").1 with _ | s | t <;>
                rcases v with _ | w | n | n | _ <;> simp [Condition.evaluate, hev]
            · rcases hev : (get_email_field_value e f).1 with _ | s | t <;>
                simp [Condition.evaluate, hev, hf]
          · by_cases h6 : p = "greater than"
            · subst h6
              by_cases hf : f = "Received Date/Time"
              · subst hf
                rcases hev : (get_email_field_value e "Received Date/Time").1 with _ | s | t <;>
                  rcases v with _ | w | n | n | _ <;> simp [Condition.evaluate, hev]
              · rcases hev : (get_email_field_value e f).1 with _ | s | t <;>
                  simp [Condition.evaluate, hev, hf]
            · rcases hev : (get_email_field_value e f).1 with _ | s | t <;>
                simp [Condition.evaluate, hev, h1, h2, h3, h4, h5, h6]

/-- Every event emitted by a condition evaluation is a warning. -/
theorem evaluate_warns (c : Condition) (e : Email) (now : ℤ) :
    ∀ ev ∈ (Condition.evaluate c e now).2, ev.is_warn = true := by
  intro ev hev
  rcases evaluate_events_shape c e now with h | h <;> rw [h] at hev
  · exact get_email_field_value_warns e c.field ev hev
  · rcases List.mem_append.mp hev with h2 | h2
    · exact get_email_field_value_warns e c.field ev h2
    · simp only [List.mem_singleton] at h2
      subst h2
      rfl

/-- Every event emitted while evaluating a list of conditions is a
warning. -/
theorem eval_conditions_warns (cs : List Condition) (e : Email) (now : ℤ) :
    ∀ ev ∈ (eval_conditions cs e now).2, ev.is_warn = true := by
  induction cs with
  | nil =>
    intro ev hev
    simp [eval_conditions] at hev
  | cons c cs ih =>
    intro ev hev
    have hw1 := evaluate_warns c e now
    simp only [eval_conditions] at hev
    rcases h1 : Condition.evaluate c e now with ⟨o, evs⟩
    rw [h1] at hev hw1
    simp only at hw1
    rcases o with _ | b
    · exact hw1 ev hev
    · rcases h2 : eval_conditions cs e now with ⟨o2, evs2⟩
      rw [h2] at hev
      have hw2 := ih
      rw [h2] at hw2
      simp only at hw2
      rcases o2 with _ | bs <;>
        rcases List.mem_append.mp hev with h3 | h3 <;>
        first
          | exact hw1 ev h3
          | exact hw2 ev h3

/-- Every event emitted by Rule.matches is a warning. -/
theorem matches_warns (r : Rule) (e : Email) (now : ℤ) :
    ∀ ev ∈ (Rule.matches r e now).2, ev.is_warn = true := by
  intro ev hev
  by_cases hc : r.conditions.isEmpty
  · simp [Rule.matches, hc] at hev
  · have hc2 : r.conditions.isEmpty = false := by
      simpa using hc
    have hw := eval_conditions_warns r.conditions e now
    rcases h1 : eval_conditions r.conditions e now with ⟨o, evs⟩
    rw [h1] at hw
    simp only at hw
    simp only [Rule.matches, hc2, Bool.false_eq_true, if_false, h1] at hev
    rcases o with _ | bs
    · exact hw ev hev
    · split_ifs at hev
      · exact hw ev hev
      · exact hw ev hev
      · rcases List.mem_append.mp hev with h2 | h2
        · exact hw ev h2
        · simp only [List.mem_singleton] at h2
          subst h2
          rfl

/-- A trace consisting only of warnings has an empty core trace. -/
theorem core_of_warns (evs : List Event) (h : ∀ ev ∈ evs, ev.is_warn = true) :
    core_trace evs = [] := by
  induction evs with
  | nil => rfl
  | cons ev evs ih =>
    have h1 := h ev (List.mem_cons_self _ _)
    have h2 := ih (fun e he => h e (List.mem_cons_of_mem _ he))
    cases ev <;> simp_all [core_trace, Event.is_warn, Event.is_core]

/-- core_trace distributes over list concatenation. -/
theorem core_trace_append (l1 l2 : List Event) :
    core_trace (l1 ++ l2) = core_trace l1 ++ core_trace l2 := by
  simp [core_trace, List.filter_append]

/-- core_trace distributes over flatMap. -/
theorem core_trace_flatMap (f : α → List Event) (l : List α) :
    core_trace (l.flatMap f) = l.flatMap (fun a => core_trace (f a)) := by
  induction l with
  | nil => rfl
  | cons a as ih => simp [List.flatMap_cons, core_trace_append, ih]

/-- A leading printed line does not contribute to the core trace. -/
theorem core_trace_cons_printed (msg : String) (l : List Event) :
    core_trace (Event.printed msg :: l) = core_trace l := rfl

/-- A leading evaluation outcome is kept by the core trace. -/
theorem core_trace_cons_evaluated (d : String) (m : Bool) (l : List Event) :
    core_trace (Event.evaluated d m :: l) = Event.evaluated d m :: core_trace l := rfl

/-- The core trace of Rule.execute_actions is the concatenation of the core
traces of its actions in declared order. -/
theorem execute_actions_core (r : Rule) (client : GmailClient) (email_id : String) :
    core_trace (Rule.execute_actions r client email_id).2 =
      r.actions.flatMap (fun a => core_trace (Action.execute a client email_id).2) := by
  unfold Rule.execute_actions
  rw [execute_actions_foldl]
  simp only [core_trace_append, core_trace_flatMap]
  rw [show core_trace [Event.printed (executing_actions_msg email_id r.description)] = []
    from rfl, List.nil_append]
  congr 1
  funext a
  have h1 : core_trace (if (Action.execute a client email_id).1 then []
      else [Event.printed (action_failed_msg a.action_type email_id)]) = [] := by
    split <;> rfl
  rw [h1, List.append_nil]

/-- When no evaluation raises, the inner loop over rules completes and its
core trace records, for each rule in load order, the evaluation outcome
followed - for matching rules - by the calls of its actions in declared
order. -/
theorem process_rules_spec (rules : List Rule) (e : Email) (client : GmailClient)
    (now : ℤ) (h : ∀ r ∈ rules, ((Rule.matches r e now).1).isSome) :
    (process_rules rules e client now).1 = true ∧
    core_trace (process_rules rules e client now).2 =
      rules.flatMap (fun r =>
        match (Rule.matches r e now).1 with
        | some true => Event.evaluated r.description true ::
            r.actions.flatMap (fun a => core_trace (Action.execute a client e.id).2)
        | some false => [Event.evaluated r.description false]
        | none => []) := by
  induction rules with
  | nil => exact ⟨rfl, rfl⟩
  | cons r rs ih =>
    obtain ⟨ih1, ih2⟩ := ih (fun r hr => h r (List.mem_cons_of_mem _ hr))
    have hr := h r (List.mem_cons_self _ _)
    obtain ⟨m, hm⟩ := Option.isSome_iff_exists.mp hr
    have hwarn := matches_warns r e now
    rcases h1 : Rule.matches r e now with ⟨o, evs⟩
    rw [h1] at hm hwarn
    simp only at hm hwarn
    subst hm
    simp only [process_rules, h1, List.flatMap_cons]
    refine ⟨ih1, ?_⟩
    rcases m with _ | _
    · simp only [Bool.false_eq_true, if_false, List.append_nil]
      simp only [core_trace_append, core_of_warns evs hwarn, List.nil_append, ih2]
      rfl
    · simp only [if_true]
      simp only [core_trace_append, core_of_warns evs hwarn, List.nil_append, ih2,
        execute_actions_core]
      rfl

/-- When no evaluation raises, the outer loop over emails completes and its
core trace concatenates the per-email core traces in batch order. -/
theorem process_all_spec (emails : List Email) (rules : List Rule)
    (client : GmailClient) (now : ℤ)
    (h : ∀ e ∈ emails, ∀ r ∈ rules, ((Rule.matches r e now).1).isSome) :
    (process_all emails rules client now).1 = true ∧
    core_trace (process_all emails rules client now).2 =
      emails.flatMap (fun e => rules.flatMap (fun r =>
        match (Rule.matches r e now).1 with
        | some true => Event.evaluated r.description true ::
            r.actions.flatMap (fun a => core_trace (Action.execute a client e.id).2)
        | some false => [Event.evaluated r.description false]
        | none => [])) := by
  induction emails with
  | nil => exact ⟨rfl, rfl⟩
  | cons e es ih =>
    obtain ⟨ih1, ih2⟩ := ih (fun e he r hr => h e (List.mem_cons_of_mem _ he) r hr)
    obtain ⟨p1, p2⟩ := process_rules_spec rules e client now (h e (List.mem_cons_self _ _))
    simp only [process_all, List.flatMap_cons, p1, if_true]
    refine ⟨ih1, ?_⟩
    rw [core_trace_cons_printed, core_trace_append, p2, ih2]

/-- C2: with an empty rule list, process_emails only logs the skip message,
so it performs no rule evaluation and no mail-service call; with a nonempty
rule list (and no evaluation raising) its evaluation-and-call trace runs
through the records in the given order and, for each record, through every
loaded rule in load order - not first-match-wins - executing the actions of
every matching rule in rule-declaration order. -/
theorem c2_process_batch (rules : List Rule) (emails : List Email)
    (client : GmailClient) (now : ℤ)
    (h : ∀ e ∈ emails, ∀ r ∈ rules, ((Rule.matches r e now).1).isSome) :
    (rules = [] →
      (RuleEngine.process_emails rules emails client now).2 =
        [Event.printed no_rules_msg]) ∧
    (rules ≠ [] →
      core_trace (RuleEngine.process_emails rules emails client now).2 =
        emails.flatMap (fun e => rules.flatMap (fun r =>
          match (Rule.matches r e now).1 with
          | some true => Event.evaluated r.description true ::
              r.actions.flatMap (fun a => core_trace (Action.execute a client e.id).2)
          | some false => [Event.evaluated r.description false]
          | none => []))) := by
  constructor
  · intro hr
    subst hr
    rfl
  · intro hr
    have hne : rules.isEmpty = false := by
      simpa [List.isEmpty_iff] using hr
    obtain ⟨p1, p2⟩ := process_all_spec emails rules client now h
    simp only [RuleEngine.process_emails, hne, Bool.false_eq_true, if_false, p1, if_true]
    rw [core_trace_cons_printed, core_trace_append, p2,
      show core_trace [Event.printed complete_msg] = [] from rfl, List.append_nil]

/-- C2 witness: one no-condition rule with one action over a one-record
batch produces exactly one evaluation outcome and one mail-service call,
while the empty rule list only logs the skip message. -/
theorem c2_witness :
    (RuleEngine.process_emails [] [sample_email] yes_client 0).2 =
      [Event.printed no_rules_msg] ∧
    core_trace (RuleEngine.process_emails
      [mkRule "r1" "ALL" [] [Action.mk "Mark as Read" none]]
      [sample_email] yes_client 0).2 =
      [Event.evaluated "r1" true, Event.call (Call.mark_as_read "e1")] := by
  constructor
  · exact (c2_process_batch [] [sample_email] yes_client 0 (by decide)).1 rfl
  · have h := (c2_process_batch [mkRule "r1" "ALL" [] [Action.mk "Mark as Read" none]]
      [sample_email] yes_client 0 (by decide)).2 (by decide)
    exact h.trans (by decide)

end Gmail
